import Mathlib

/-!
Shallow embedding of the ImageProcessor pipeline (github.com/oziev02/ImageProcessor).

Embedded components, each translated from the Go source:
* domain model (`internal/domain`): statuses, formats, `Image`, `ProcessingTask`;
* image registry (`internal/repo`, Postgres-backed): `Create`, `GetByID`, `Update`
  modelled over a list of rows, with `Update` writing exactly the columns of its SQL;
* ingestion service `imageService.Upload` and worker `processorService.ProcessImage`
  (`internal/service`), with external effects (id generation, clock, storage and
  database success/failure, image decoding) supplied by explicit environments;
* Kafka producer (`internal/transport/kafka`): message construction in `SendTask`
  and the partition balancer configured in `NewProducer` (kafka-go `LeastBytes`);
* Kafka consumer loop `consumer.Start`, modelled as a trace of fetch / process /
  commit calls over a finite prefix of queue messages.

Go `int`/`int64` values are modelled as `Int` (no claim exercises 64-bit overflow;
the one `int → uint` conversion in the code is modelled with an explicit `% 2^64`).
-/

namespace ImageProcessor

/-- `domain.ProcessingStatus`: processing status of an image. -/
inductive ProcessingStatus
  | pending
  | processing
  | completed
  | failed
  deriving DecidableEq, Repr

/-- `domain.ImageFormat`: supported image formats. -/
inductive ImageFormat
  | jpeg
  | png
  | gif
  deriving DecidableEq, Repr

/-- `domain.Image`: the image registry row.  Times are abstract clock ticks. -/
structure Image where
  id : String
  originalPath : String
  processedPath : String
  thumbnailPath : String
  status : ProcessingStatus
  format : ImageFormat
  originalWidth : Int
  originalHeight : Int
  processedWidth : Int
  processedHeight : Int
  createdAt : Nat
  updatedAt : Nat
  deriving DecidableEq, Repr

/-- `domain.ProcessingTask`: the queue-borne task. -/
structure ProcessingTask where
  imageID : String
  imagePath : String
  format : ImageFormat
  width : Int
  height : Int
  deriving DecidableEq, Repr

/-- `domain.Image.Validate`: required-field validation. -/
def imageValidate (i : Image) : Bool :=
  !(i.id = "") && !(i.originalPath = "")

/-- `config.ImageConfig`: the image-related configuration the pipeline reads. -/
structure ImageConfig where
  maxFileSize : Int
  thumbnailWidth : Int
  thumbnailHeight : Int
  processedWidth : Int
  processedHeight : Int
  watermarkEnabled : Bool
  watermarkPath : String
  deriving DecidableEq, Repr

/-- Go `uint(n)` conversion of a 64-bit `int`: reduction mod `2^64`. -/
def goUint (n : Int) : Nat := (n % (2 : Int) ^ 64).toNat

/-- `filepath.Ext`: the suffix of the final path element starting at its last
dot; empty when the final element has no dot.  The Go loop scans from the end
and stops at a path separator. -/
def filepathExtAux : List Char → List Char → Option (List Char)
  | [], _ => none
  | c :: rest, acc =>
    if c = '/' then none
    else if c = '.' then some ('.' :: acc)
    else filepathExtAux rest (c :: acc)

/-- `filepath.Ext` on strings. -/
def filepathExt (s : String) : String :=
  match filepathExtAux s.data.reverse [] with
  | some l => String.mk l
  | none => ""

/-- `filepath.Join` on two clean relative components, as used by the services. -/
def pathJoin (a b : String) : String := a ++ "/" ++ b

/-- `strings.ToLower` on one character.  Filename extensions are ASCII; the
Unicode case foldings beyond ASCII are not exercised by the format table. -/
def toLowerChar (c : Char) : Char :=
  if 'A' ≤ c ∧ c ≤ 'Z' then Char.ofNat (c.toNat + 32) else c

/-- `strings.ToLower` on strings. -/
def stringToLower (s : String) : String := String.mk (s.data.map toLowerChar)

/-- `domain` errors and the service-level wrapping errors of `Upload`. -/
inductive UploadError
  | fileTooLarge
  | unsupportedFormat
  | saveOriginalFailed
  | decodeFailed
  | invalidImage
  | createFailed
  | sendTaskFailed
  deriving DecidableEq, Repr

/-- Service-level errors of `ProcessImage`, one per failure return. -/
inductive ProcError
  | getImageFailed
  | updateStatusFailed
  | readFailed
  | decodeFailed
  | saveProcessedFailed
  | saveThumbnailFailed
  | finalUpdateFailed
  deriving DecidableEq, Repr

/-- `service.parseFormat`: map a (lower-cased) filename extension to a format. -/
def parseFormat (ext : String) : Except UploadError ImageFormat :=
  if ext = ".jpg" ∨ ext = ".jpeg" then .ok .jpeg
  else if ext = ".png" then .ok .png
  else if ext = ".gif" then .ok .gif
  else .error .unsupportedFormat

/-- `service.getExtension`: canonical extension written for a format.  The Go
`default: ".jpg"` branch is unreachable for the three-valued format type. -/
def getExtension : ImageFormat → String
  | .jpeg => ".jpg"
  | .png => ".png"
  | .gif => ".gif"

/-- Output dimensions of `nfnt/resize.Resize w h img`: both targets zero keeps
the source dimensions; one zero target is filled aspect-preservingly (the Go
float expression `uint(0.7 + old/scale)` is modelled exactly over rationals);
two non-zero targets are applied literally. -/
def resizeDims (w h ow oh : Nat) : Nat × Nat :=
  if w = 0 ∧ h = 0 then (ow, oh)
  else if w = 0 then ((10 * ow * h + 7 * oh) / (10 * oh), h)
  else if h = 0 then (w, (10 * oh * w + 7 * ow) / (10 * ow))
  else (w, h)

/-- The image registry table, ordered list of rows (`images` table). -/
abbrev Registry := List Image

/-- `imageRepo.GetByID`: `SELECT ... WHERE id = $1`; `none` models both the
`ErrImageNotFound` case and a row-fetch error. -/
def regGet (reg : Registry) (i : String) : Option Image :=
  List.find? (fun im => im.id = i) reg

/-- `imageRepo.Create`: `INSERT` of a full row. -/
def regInsert (reg : Registry) (img : Image) : Registry :=
  reg ++ [img]

/-- Effect of the `imageRepo.Update` SQL on one matching row: the `SET` clause
names exactly `processed_path, thumbnail_path, status, processed_width,
processed_height, updated_at`; every other column of the stored row stays. -/
def applyUpdate (old img : Image) : Image :=
  { old with
    processedPath := img.processedPath
    thumbnailPath := img.thumbnailPath
    status := img.status
    processedWidth := img.processedWidth
    processedHeight := img.processedHeight
    updatedAt := img.updatedAt }

/-- `imageRepo.Update`: apply the `SET` clause to rows matching `WHERE id`. -/
def regUpdate (reg : Registry) (img : Image) : Registry :=
  reg.map (fun old => if old.id = img.id then applyUpdate old img else old)

deriving instance DecidableEq for Except

/-- External effects of one `imageService.Upload` call: the generated id
(`repo.GenerateID`), the clock value, the decoded dimensions of the uploaded
stream (`none` = decode failure), and the success of the storage save, registry
insert and queue send. -/
structure UploadEnv where
  generatedId : String
  now : Nat
  saveOk : Bool
  decoded : Option (Nat × Nat)
  createOk : Bool
  sendOk : Bool
  deriving DecidableEq, Repr

/-- Joint state of the stores `Upload` touches: the registry, the blob paths
written to storage, and the tasks sent to the queue (in order). -/
structure PipelineState where
  registry : Registry
  blobs : List String
  queued : List ProcessingTask
  deriving DecidableEq, Repr

/-- `imageService.Upload`, translated step by step: size check, format from the
lower-cased filename extension, save of the original blob at
`original/<id><ext>`, dimension decode, row construction with `status=pending`
and validation, registry insert, and task enqueue.  Each failure returns the
state reached so far. -/
def upload (cfg : ImageConfig) (env : UploadEnv) (st : PipelineState)
    (size : Int) (filename : String) : PipelineState × Except UploadError Image :=
  if size > cfg.maxFileSize then (st, .error .fileTooLarge)
  else
    let id := env.generatedId
    let ext := stringToLower (filepathExt filename)
    match parseFormat ext with
    | .error e => (st, .error e)
    | .ok format =>
      let originalPath := pathJoin "original" (id ++ ext)
      if !env.saveOk then (st, .error .saveOriginalFailed)
      else
        let st1 := { st with blobs := st.blobs ++ [originalPath] }
        match env.decoded with
        | none => (st1, .error .decodeFailed)
        | some (w, h) =>
          let img : Image :=
            { id := id
              originalPath := originalPath
              processedPath := ""
              thumbnailPath := ""
              status := .pending
              format := format
              originalWidth := (w : Int)
              originalHeight := (h : Int)
              processedWidth := 0
              processedHeight := 0
              createdAt := env.now
              updatedAt := env.now }
          if !imageValidate img then (st1, .error .invalidImage)
          else if !env.createOk then (st1, .error .createFailed)
          else
            let st2 := { st1 with registry := regInsert st1.registry img }
            let task : ProcessingTask :=
              { imageID := id
                imagePath := originalPath
                format := format
                width := (w : Int)
                height := (h : Int) }
            if !env.sendOk then (st2, .error .sendTaskFailed)
            else ({ st2 with queued := st2.queued ++ [task] }, .ok img)

/-- External effects of one `processorService.ProcessImage` call: clock values
for the three `time.Now()` sites, decoded dimensions of the original blob
(`none` = read succeeded but decode failed), and success of the storage read,
the two encode-and-save calls, and the three registry updates.  The outcome of
the failed-status update only matters for the registry contents: its error is
discarded by the code. -/
structure ProcEnv where
  tProcessing : Nat
  tFail : Nat
  tDone : Nat
  updProcessingOk : Bool
  readOk : Bool
  decoded : Option (Nat × Nat)
  saveProcessedOk : Bool
  saveThumbnailOk : Bool
  updFailedOk : Bool
  updFinalOk : Bool
  deriving DecidableEq, Repr

/-- Result of one `ProcessImage` call: the final registry, the rows passed to
the registry updates that succeeded (in call order), the blob paths written,
and the returned value. -/
structure ProcResult where
  registry : Registry
  updates : List Image
  blobs : List String
  res : Except ProcError Unit
  deriving DecidableEq, Repr

/-- The shared failure tail of `ProcessImage`: set `status=failed`,
`updated_at=now`, attempt the update with its error discarded, return. -/
def procFail (env : ProcEnv) (reg : Registry) (img1 : Image) (blobs : List String)
    (e : ProcError) : ProcResult :=
  let img2 := { img1 with status := .failed, updatedAt := env.tFail }
  if env.updFailedOk then ⟨regUpdate reg img2, [img1, img2], blobs, .error e⟩
  else ⟨reg, [img1], blobs, .error e⟩

/-- `processorService.ProcessImage`, translated step by step: load the row by
`task.ImageID`; unconditionally set `status=processing` and persist; read and
decode the original blob; resize to the configured processed and thumbnail
targets (both from the original decoded image); encode-and-save both blobs at
`processed/<id><ext>` and `thumbnail/<id><ext>` with the canonical extension of
`task.Format`; finalize the row to `completed` with the processed image's
bounds.  Every failure after the processing update goes through `procFail`. -/
def processImage (cfg : ImageConfig) (env : ProcEnv) (reg : Registry)
    (task : ProcessingTask) : ProcResult :=
  match regGet reg task.imageID with
  | none => ⟨reg, [], [], .error .getImageFailed⟩
  | some img0 =>
    let img1 := { img0 with status := .processing, updatedAt := env.tProcessing }
    if !env.updProcessingOk then ⟨reg, [], [], .error .updateStatusFailed⟩
    else
      let reg1 := regUpdate reg img1
      if !env.readOk then procFail env reg1 img1 [] .readFailed
      else
        match env.decoded with
        | none => procFail env reg1 img1 [] .decodeFailed
        | some (ow, oh) =>
          let pDims := resizeDims (goUint cfg.processedWidth) (goUint cfg.processedHeight) ow oh
          let tDims := resizeDims (goUint cfg.thumbnailWidth) (goUint cfg.thumbnailHeight) ow oh
          let processedPath := pathJoin "processed" (task.imageID ++ getExtension task.format)
          if !env.saveProcessedOk then procFail env reg1 img1 [] .saveProcessedFailed
          else
            let thumbnailPath := pathJoin "thumbnail" (task.imageID ++ getExtension task.format)
            if !env.saveThumbnailOk then
              procFail env reg1 img1 [processedPath] .saveThumbnailFailed
            else
              let img3 :=
                { img1 with
                  processedPath := processedPath
                  thumbnailPath := thumbnailPath
                  status := .completed
                  processedWidth := (pDims.1 : Int)
                  processedHeight := (pDims.2 : Int)
                  updatedAt := env.tDone }
              let _ := tDims
              if !env.updFinalOk then
                ⟨reg1, [img1], [processedPath, thumbnailPath], .error .finalUpdateFailed⟩
              else
                ⟨regUpdate reg1 img3, [img1, img3], [processedPath, thumbnailPath], .ok ()⟩

/-- JSON rendering of a format value (`domain.ImageFormat` string values). -/
def formatString : ImageFormat → String
  | .jpeg => "jpeg"
  | .png => "png"
  | .gif => "gif"

/-- JSON string literal.  Go's escaping of special characters is not modelled:
the fields this system serializes (UUIDs, `original/...` paths, format names)
contain none. -/
def jsonString (s : String) : String := "\"" ++ s ++ "\""

/-- `json.Marshal` of a `ProcessingTask`, following the struct tag names and
field order of `domain.ProcessingTask`. -/
def taskJson (t : ProcessingTask) : String :=
  "\x7b" ++ "\"image_id\":" ++ jsonString t.imageID
    ++ ",\"image_path\":" ++ jsonString t.imagePath
    ++ ",\"format\":" ++ jsonString (formatString t.format)
    ++ ",\"width\":" ++ toString t.width
    ++ ",\"height\":" ++ toString t.height ++ "\x7d"

/-- A Kafka record as built by `producer.SendTask`. -/
structure KafkaMessage where
  key : String
  value : String
  deriving DecidableEq, Repr

/-- The message `SendTask` writes for a task: `Key = []byte(task.ImageID)`,
`Value = json.Marshal(task)`. -/
def sendTaskMessage (t : ProcessingTask) : KafkaMessage :=
  { key := t.imageID, value := taskJson t }

/-- Byte size of a record as counted by kafka-go's `LeastBytes` balancer:
`len(msg.Key) + len(msg.Value)`. -/
def messageBytes (m : KafkaMessage) : Nat :=
  m.key.utf8ByteSize + m.value.utf8ByteSize

/-- First index of the minimal counter (kafka-go `LeastBytes.Balance` scan):
`best` is the current best index, `bestBytes` its value, `i` the next index. -/
def leastBytesPickAux : List Nat → Nat → Nat → Nat → Nat
  | [], best, _, _ => best
  | c :: rest, best, bestBytes, i =>
    if c < bestBytes then leastBytesPickAux rest i c (i + 1)
    else leastBytesPickAux rest best bestBytes (i + 1)

/-- Partition chosen by the `LeastBytes` balancer from the per-partition byte
counters.  The empty case is unreachable (a topic has at least one partition). -/
def leastBytesPick : List Nat → Nat
  | [] => 0
  | c :: rest => leastBytesPickAux rest 0 c 1

/-- State of the writer configured by `NewProducer`: the `LeastBytes` balancer's
byte counter per partition.  `NewProducer` sets `Balancer: &kafka.LeastBytes`;
no key-based balancer is configured. -/
structure WriterState where
  counters : List Nat
  deriving DecidableEq, Repr

/-- One `LeastBytes.Balance` call: pick the least-loaded partition and charge
the message's bytes to it.  The message key plays no part in the choice. -/
def leastBytesBalance (counters : List Nat) (m : KafkaMessage) : Nat × List Nat :=
  let idx := leastBytesPick counters
  (idx, counters.set idx (counters.getD idx 0 + messageBytes m))

/-- `producer.SendTask` through the writer: build the record and route it with
the configured balancer.  Returns the record, the chosen partition, and the
updated writer state. -/
def producerSendTask (st : WriterState) (t : ProcessingTask) :
    KafkaMessage × Nat × WriterState :=
  let msg := sendTaskMessage t
  let pc := leastBytesBalance st.counters msg
  (msg, pc.1, ⟨pc.2⟩)

/-- One outcome of `reader.FetchMessage` in the consumer loop: a fetch error,
or a message (identified by its offset `i`) whose payload deserializes to
`parsed` (`none` = `json.Unmarshal` error). -/
inductive FetchItem
  | failure
  | msg (i : Nat) (parsed : Option ProcessingTask)
  deriving DecidableEq, Repr

/-- Calls the consumer loop makes, in order: a message fetch, a
`processor.ProcessImage` invocation (with the processor's outcome), and a
`CommitMessages` call. -/
inductive CEvent
  | fetchCall (i : Nat)
  | processCall (i : Nat) (ok : Bool)
  | commitCall (i : Nat)
  deriving DecidableEq, Repr

/-- How the consumer loop ends: context cancellation observed at the loop head,
a fetch error returned (wrapped), or a commit error returned (wrapped). -/
inductive CExit
  | cancelled
  | fetchFailed
  | commitFailed
  deriving DecidableEq, Repr

/-- `consumer.Start` over a finite prefix of fetch outcomes (the list ends at
the first loop head where the context is observed cancelled).  `procOk` is the
processor's verdict per task (its error is discarded by the loop); `commitOk`
is the broker's verdict on each `CommitMessages` call.  A deserialization
failure commits (error ignored) and continues without invoking the processor;
a processed message is committed unconditionally, and only that commit's error
stops the loop. -/
def consumerStart (procOk : ProcessingTask → Bool) (commitOk : Nat → Bool) :
    List FetchItem → List CEvent × CExit
  | [] => ([], .cancelled)
  | .failure :: _ => ([], .fetchFailed)
  | .msg i parsed :: rest =>
    match parsed with
    | none =>
      let r := consumerStart procOk commitOk rest
      (.fetchCall i :: .commitCall i :: r.1, r.2)
    | some task =>
      let ok := procOk task
      if commitOk i then
        let r := consumerStart procOk commitOk rest
        (.fetchCall i :: .processCall i ok :: .commitCall i :: r.1, r.2)
      else
        ([.fetchCall i, .processCall i ok, .commitCall i], .commitFailed)

/-! ### General lemmas about the embedded operations -/

theorem regGet_mem_id {reg : Registry} {i : String} {im : Image}
    (h : regGet reg i = some im) : im.id = i := by
  have := List.find?_some h
  simpa using this

theorem applyUpdate_id (old img : Image) : (applyUpdate old img).id = old.id := rfl

theorem regGet_regUpdate (reg : Registry) (img : Image) (i : String) :
    regGet (regUpdate reg img) i
      = (regGet reg i).map
          (fun old => if old.id = img.id then applyUpdate old img else old) := by
  induction reg with
  | nil => rfl
  | cons a l ih =>
    unfold regGet regUpdate at *
    simp only [List.map_cons, List.find?_cons] at *
    have hid : (if a.id = img.id then applyUpdate a img else a).id = a.id := by
      by_cases ham : a.id = img.id <;> simp [ham, applyUpdate_id]
    rw [hid]
    by_cases hai : a.id = i
    · simp [hai]
    · simp only [hai, decide_eq_true_eq, decide_eq_false_iff_not, not_false_iff]
      simpa [hai] using ih

theorem goUint_of_range {n : Int} (h0 : 0 ≤ n) (h1 : n < 2 ^ 64) :
    (goUint n : Int) = n := by
  unfold goUint
  rw [Int.emod_eq_of_lt h0 h1]
  exact Int.toNat_of_nonneg h0

theorem goUint_ne_zero {n : Int} (h0 : 0 < n) (h1 : n < 2 ^ 64) :
    goUint n ≠ 0 := by
  intro h
  have h2 := goUint_of_range h0.le h1
  rw [h] at h2
  simp at h2
  omega

theorem resizeDims_of_ne_zero {w h : Nat} (hw : w ≠ 0) (hh : h ≠ 0) (ow oh : Nat) :
    resizeDims w h ow oh = (w, h) := by
  unfold resizeDims
  simp [hw, hh]

/-! ### Concrete fixtures used to instantiate and refute claims -/

/-- Example configuration: 10 MiB limit, 800×800 processed, 200×200 thumbnail. -/
def exCfg : ImageConfig := ⟨10485760, 200, 200, 800, 800, false, ""⟩

/-- Example upload environment: id `id1`, clock 5, all stores succeed, the
uploaded stream decodes to 100×50. -/
def exUploadEnv : UploadEnv := ⟨"id1", 5, true, some (100, 50), true, true⟩

/-- Example all-success processing environment decoding a 100×50 original. -/
def exProcEnv : ProcEnv := ⟨6, 7, 8, true, true, some (100, 50), true, true, true, true⟩

/-- Example processing environment whose blob-store read fails. -/
def exReadFailEnv : ProcEnv := ⟨6, 7, 8, true, false, some (100, 50), true, true, true, true⟩

/-- Example pending registry row as ingestion creates it. -/
def exPendingImg : Image :=
  ⟨"id1", "original/id1.jpg", "", "", .pending, .jpeg, 100, 50, 0, 0, 1, 1⟩

/-- Example registry row that has already completed processing. -/
def exCompletedImg : Image :=
  ⟨"id1", "original/id1.jpg", "processed/id1.jpg", "thumbnail/id1.jpg",
    .completed, .jpeg, 100, 50, 800, 800, 1, 4⟩

/-- Example queue task for image `id1`. -/
def exTask : ProcessingTask := ⟨"id1", "original/id1.jpg", .jpeg, 100, 50⟩

/-! ### The claims -/

/-- C3: for every fetched message that deserializes, the consumer loop invokes
the Processor once and then calls commit exactly once, whatever the Processor
answered (its error is discarded; only the commit's own failure stops the
loop); for every fetched message that fails to deserialize, the loop commits
and drops it without invoking the Processor. -/
theorem C3_consumer_commit_discipline (procOk : ProcessingTask → Bool)
    (commitOk : Nat → Bool) (i : Nat) (t : ProcessingTask) (rest : List FetchItem) :
    (consumerStart procOk commitOk (.msg i (some t) :: rest)
        = if commitOk i
          then (.fetchCall i :: .processCall i (procOk t) :: .commitCall i ::
                  (consumerStart procOk commitOk rest).1,
                (consumerStart procOk commitOk rest).2)
          else ([.fetchCall i, .processCall i (procOk t), .commitCall i],
                .commitFailed)) ∧
    consumerStart procOk commitOk (.msg i none :: rest)
      = (.fetchCall i :: .commitCall i :: (consumerStart procOk commitOk rest).1,
         (consumerStart procOk commitOk rest).2) := by
  constructor
  · by_cases h : commitOk i <;> simp [consumerStart, h]
  · rfl

/-- C10: a fetch error terminates the consumer loop at once with the (wrapped)
error: nothing is handed to the Processor, nothing is committed, and the
remaining messages — whatever they are — are never consumed. -/
theorem C10_fetch_error_terminates (procOk : ProcessingTask → Bool)
    (commitOk : Nat → Bool) (rest : List FetchItem) :
    consumerStart procOk commitOk (.failure :: rest) = ([], .fetchFailed) := rfl

/-- C4 (amended): the record key `SendTask` writes is the task's `image_id`,
but the partition is chosen by the configured `LeastBytes` balancer from the
byte counters alone — the same for any task, so the key does not determine the
partition. -/
theorem C4_key_is_image_id_balancer_ignores_key (st : WriterState)
    (t t2 : ProcessingTask) :
    (producerSendTask st t).1.key = t.imageID ∧
    (producerSendTask st t).2.1 = leastBytesPick st.counters ∧
    (producerSendTask st t).2.1 = (producerSendTask st t2).2.1 :=
  ⟨rfl, rfl, rfl⟩

/-- C4 counterexample: two consecutive `SendTask` calls for the *same*
`image_id` from a fresh two-partition writer are routed to partitions 0 and 1
respectively — the `LeastBytes` balancer does not route by key. -/
theorem C4_counterexample :
    (producerSendTask ⟨[0, 0]⟩ ⟨"id1", "original/id1.jpg", .jpeg, 100, 50⟩).2.1 = 0 ∧
    (producerSendTask
        (producerSendTask ⟨[0, 0]⟩ ⟨"id1", "original/id1.jpg", .jpeg, 100, 50⟩).2.2
        ⟨"id1", "original/id1.jpg", .jpeg, 100, 50⟩).2.1 = 1 ∧
    (0 : Nat) ≠ 1 := by
  refine ⟨rfl, rfl, by decide⟩

/-- The ingestion-time columns of a registry row: `id, original_path, format,
original_width, original_height, created_at`. -/
def ingestionFields (r : Image) : String × String × ImageFormat × Int × Int × Nat :=
  (r.id, r.originalPath, r.format, r.originalWidth, r.originalHeight, r.createdAt)

theorem regUpdate_map_ingestionFields (reg : Registry) (img : Image) :
    (regUpdate reg img).map ingestionFields = reg.map ingestionFields := by
  unfold regUpdate
  rw [List.map_map]
  apply List.map_congr_left
  intro a _
  by_cases h : a.id = img.id <;> simp [h, applyUpdate, ingestionFields]

theorem procFail_map_ingestionFields (env : ProcEnv) (reg : Registry)
    (img1 : Image) (blobs : List String) (e : ProcError) :
    (procFail env reg img1 blobs e).registry.map ingestionFields
      = reg.map ingestionFields := by
  unfold procFail
  split <;> simp [regUpdate_map_ingestionFields]

/-- C9: the registry `Update` rewrites only `processed_path, thumbnail_path,
status, processed_width, processed_height, updated_at`; the ingestion-time
columns of every stored row survive any `Update` and any `ProcessImage` run
unchanged. -/
theorem C9_ingestion_fields_immutable :
    (∀ (reg : Registry) (img : Image),
        (regUpdate reg img).map ingestionFields = reg.map ingestionFields) ∧
    (∀ (cfg : ImageConfig) (env : ProcEnv) (reg : Registry) (task : ProcessingTask),
        (processImage cfg env reg task).registry.map ingestionFields
          = reg.map ingestionFields) := by
  refine ⟨regUpdate_map_ingestionFields, ?_⟩
  intro cfg env reg task
  obtain ⟨t1, t2, t3, u1, r, d, sp, stb, uf, u2⟩ := env
  cases hg : regGet reg task.imageID with
  | none => simp [processImage, hg]
  | some img0 =>
    cases u1 <;> cases r <;> rcases d with _ | ⟨ow, oh⟩ <;> cases sp <;> cases stb <;>
      cases uf <;> cases u2 <;>
      simp [processImage, procFail, hg, regUpdate_map_ingestionFields]

/-- C1 counterexample: `ProcessImage`, applied (as on queue redelivery) to a
row whose status is already `completed`, first writes `processing` to the
registry — a transition out of `completed` back to `processing`. -/
theorem C1_counterexample :
    exCompletedImg.status = .completed ∧
    (processImage exCfg exProcEnv [exCompletedImg] exTask).updates.map Image.status
      = [.processing, .completed] := by
  refine ⟨rfl, by decide⟩

/-- C1 (amended): `Upload` only ever inserts a `pending` row, and the registry
writes of one `ProcessImage` run always follow the order `processing` then
`completed`/`failed` — so status is monotone when the loaded row is `pending`;
but `ProcessImage` sets `processing` unconditionally, so a redelivered task for
a `completed` or `failed` row moves it back to `processing`. -/
theorem C1_status_write_discipline :
    (∀ (cfg : ImageConfig) (env : UploadEnv) (st : PipelineState) (size : Int)
        (filename : String),
        (upload cfg env st size filename).1.registry = st.registry ∨
        ∃ img, (upload cfg env st size filename).1.registry = st.registry ++ [img] ∧
          img.status = .pending) ∧
    (∀ (cfg : ImageConfig) (env : ProcEnv) (reg : Registry) (task : ProcessingTask),
        (processImage cfg env reg task).updates.map Image.status = [] ∨
        (processImage cfg env reg task).updates.map Image.status = [.processing] ∨
        (processImage cfg env reg task).updates.map Image.status
          = [.processing, .failed] ∨
        (processImage cfg env reg task).updates.map Image.status
          = [.processing, .completed]) := by
  constructor
  · intro cfg env st size filename
    unfold upload
    dsimp only
    repeat' split
    all_goals first | (left; rfl) | (right; exact ⟨_, rfl, rfl⟩)
  · intro cfg env reg task
    obtain ⟨t1, t2, t3, u1, r, d, sp, stb, uf, u2⟩ := env
    cases hg : regGet reg task.imageID with
    | none => simp [processImage, hg]
    | some img0 =>
      cases u1 <;> cases r <;> rcases d with _ | ⟨ow, oh⟩ <;> cases sp <;>
        cases stb <;> cases uf <;> cases u2 <;>
        simp [processImage, procFail, hg]

/-- C2 counterexample: on the missing-row failure path `ProcessImage` returns
an error having written nothing at all — no terminal `failed` status is
persisted before the error is surfaced. -/
theorem C2_counterexample :
    (processImage exCfg exProcEnv [] exTask).res = .error .getImageFailed ∧
    (processImage exCfg exProcEnv [] exTask).updates = [] ∧
    (processImage exCfg exProcEnv [] exTask).registry = [] := by
  decide

/-- C2 (amended): the failure paths strictly between the `processing` update
and the final update — blob read, decode, processed save, thumbnail save —
persist `status=failed` before surfacing the error (when that write itself
succeeds); the missing-row, `processing`-update-failure and final-update-failure
paths return their error without writing `failed`. -/
theorem C2_midstage_failures_persist_failed (cfg : ImageConfig) (env : ProcEnv)
    (reg : Registry) (task : ProcessingTask) (img : Image)
    (hget : regGet reg task.imageID = some img)
    (hupd1 : env.updProcessingOk = true)
    (hupdf : env.updFailedOk = true)
    (hfail : env.readOk = false ∨ env.decoded = none ∨
      env.saveProcessedOk = false ∨ env.saveThumbnailOk = false) :
    (processImage cfg env reg task).res ≠ .ok () ∧
    (processImage cfg env reg task).updates.map Image.status
      = [.processing, .failed] ∧
    (regGet (processImage cfg env reg task).registry task.imageID).map Image.status
      = some .failed := by
  obtain ⟨t1, t2, t3, u1, r, d, sp, stb, uf, u2⟩ := env
  simp only at hupd1 hupdf hfail
  subst hupd1
  subst hupdf
  cases r <;> rcases d with _ | ⟨ow, oh⟩ <;> cases sp <;> cases stb <;>
    simp_all [processImage, procFail, regGet_regUpdate, applyUpdate]

/-- C2 witness: a concrete run whose blob read fails ends with an error and a
persisted `failed` row. -/
theorem C2_witness :
    (processImage exCfg exReadFailEnv [exPendingImg] exTask).res ≠ .ok () ∧
    (processImage exCfg exReadFailEnv [exPendingImg] exTask).updates.map Image.status
      = [.processing, .failed] ∧
    (regGet (processImage exCfg exReadFailEnv [exPendingImg] exTask).registry
        exTask.imageID).map Image.status = some .failed :=
  C2_midstage_failures_persist_failed exCfg exReadFailEnv [exPendingImg] exTask
    exPendingImg (by decide) rfl rfl (Or.inl rfl)

/-- C5: every row `ProcessImage` writes with `status=completed` carries exactly
the configured processed target dimensions, whatever the original decoded
dimensions (and hence aspect ratio) were, provided the configured targets are
positive (and within Go's 64-bit int range): the resize applies both targets
literally. -/
theorem C5_completed_rows_have_configured_dims (cfg : ImageConfig) (env : ProcEnv)
    (reg : Registry) (task : ProcessingTask) (u : Image)
    (hw : 0 < cfg.processedWidth) (hwr : cfg.processedWidth < 2 ^ 63)
    (hh : 0 < cfg.processedHeight) (hhr : cfg.processedHeight < 2 ^ 63)
    (hu : u ∈ (processImage cfg env reg task).updates)
    (hc : u.status = .completed) :
    u.processedWidth = cfg.processedWidth ∧
    u.processedHeight = cfg.processedHeight := by
  have h64w : cfg.processedWidth < 2 ^ 64 := lt_trans hwr (by norm_num)
  have h64h : cfg.processedHeight < 2 ^ 64 := lt_trans hhr (by norm_num)
  have hWz := goUint_ne_zero hw h64w
  have hHz := goUint_ne_zero hh h64h
  have hWv := goUint_of_range hw.le h64w
  have hHv := goUint_of_range hh.le h64h
  obtain ⟨t1, t2, t3, u1, r, d, sp, stb, uf, u2⟩ := env
  cases hg : regGet reg task.imageID with
  | none => simp [processImage, hg] at hu
  | some img0 =>
    cases u1 <;> cases r <;> rcases d with _ | ⟨ow, oh⟩ <;> cases sp <;> cases stb <;>
      cases uf <;> cases u2 <;>
      simp_all [processImage, procFail, resizeDims_of_ne_zero hWz hHz] <;>
      (try (rcases hu with rfl | rfl <;> simp_all))

/-- The completed row written by the concrete all-success run on `exPendingImg`. -/
def exCompletedUpd : Image :=
  ⟨"id1", "original/id1.jpg", "processed/id1.jpg", "thumbnail/id1.jpg",
    .completed, .jpeg, 100, 50, 800, 800, 1, 8⟩

/-- C5 witness: the concrete all-success run on a 100×50 original under an
800×800 configured target writes a completed row of exactly 800×800. -/
theorem C5_witness :
    exCompletedUpd.processedWidth = exCfg.processedWidth ∧
    exCompletedUpd.processedHeight = exCfg.processedHeight :=
  C5_completed_rows_have_configured_dims exCfg exProcEnv [exPendingImg] exTask
    exCompletedUpd (by decide) (by decide) (by decide) (by decide) (by decide) rfl

/-- C6 counterexample: a successful upload of a 100×50 image under an 800×800
configured processed target enqueues a task whose `width` is 100, the original
decoded width — not the resize target 800 the worker applies. -/
theorem C6_counterexample :
    (upload exCfg exUploadEnv ⟨[], [], []⟩ 10 "photo.jpg").1.queued.map
        ProcessingTask.width = [100] ∧
    exCfg.processedWidth = 800 ∧ (100 : Int) ≠ 800 := by
  refine ⟨by decide, rfl, by decide⟩

/-- C6 (amended): the task enqueued by a successful upload carries the image
id, the original blob path, the ingestion format, and the *original decoded*
width and height — not the configured resize target; and `ProcessImage`
ignores the task's width/height entirely, taking its targets from
configuration. -/
theorem C6_task_carries_original_dims (cfg : ImageConfig) (env : UploadEnv)
    (st : PipelineState) (size : Int) (filename : String) (img : Image)
    (hok : (upload cfg env st size filename).2 = .ok img) :
    (upload cfg env st size filename).1.queued
      = st.queued ++ [⟨img.id, img.originalPath, img.format,
          img.originalWidth, img.originalHeight⟩] ∧
    ∀ (cfg2 : ImageConfig) (penv : ProcEnv) (reg : Registry)
        (task : ProcessingTask) (a b : Int),
      processImage cfg2 penv reg { task with width := a, height := b }
        = processImage cfg2 penv reg task := by
  constructor
  · revert hok
    unfold upload
    dsimp only
    repeat' split
    all_goals intro hok
    all_goals dsimp only at hok
    all_goals
      first
        | (injection hok with h; subst h; rfl)
        | (simp at hok)
  · intro cfg2 penv reg task a b
    cases task
    rfl

/-- The pending row created by the concrete successful upload of `photo.jpg`. -/
def exUploadedImg : Image :=
  ⟨"id1", "original/id1.jpg", "", "", .pending, .jpeg, 100, 50, 0, 0, 5, 5⟩

/-- C6 witness: the concrete successful upload of a 100×50 `photo.jpg` enqueues
the task with the original dimensions. -/
theorem C6_witness :
    (upload exCfg exUploadEnv ⟨[], [], []⟩ 10 "photo.jpg").1.queued
      = (⟨[], [], []⟩ : PipelineState).queued
          ++ [⟨exUploadedImg.id, exUploadedImg.originalPath, exUploadedImg.format,
              exUploadedImg.originalWidth, exUploadedImg.originalHeight⟩] :=
  (C6_task_carries_original_dims exCfg exUploadEnv ⟨[], [], []⟩ 10 "photo.jpg"
    exUploadedImg (by decide)).1

/-- C7: an upload whose (lower-cased) filename extension is not one of `.jpg`,
`.jpeg`, `.png`, `.gif` fails with the unsupported-format error and leaves the
system unchanged: no registry row, no blob, no queued task. -/
theorem C7_unsupported_format_no_effect (cfg : ImageConfig) (env : UploadEnv)
    (st : PipelineState) (size : Int) (filename : String)
    (hsize : size ≤ cfg.maxFileSize)
    (hext : ¬(stringToLower (filepathExt filename) = ".jpg" ∨
        stringToLower (filepathExt filename) = ".jpeg" ∨
        stringToLower (filepathExt filename) = ".png" ∨
        stringToLower (filepathExt filename) = ".gif")) :
    upload cfg env st size filename = (st, .error .unsupportedFormat) := by
  push_neg at hext
  obtain ⟨h1, h2, h3, h4⟩ := hext
  have hp : parseFormat (stringToLower (filepathExt filename)) = .error .unsupportedFormat := by
    unfold parseFormat
    rw [if_neg (not_or.mpr ⟨h1, h2⟩), if_neg h3, if_neg h4]
  unfold upload
  rw [if_neg (not_lt.mpr hsize)]
  dsimp only
  rw [hp]

/-- C7 witness: uploading a small `.bmp` file fails with the unsupported-format
error and leaves the empty system state untouched. -/
theorem C7_witness :
    upload exCfg exUploadEnv ⟨[], [], []⟩ 10 "photo.bmp"
      = (⟨[], [], []⟩, .error .unsupportedFormat) :=
  C7_unsupported_format_no_effect exCfg exUploadEnv ⟨[], [], []⟩ 10 "photo.bmp"
    (by decide) (by decide)

/-- C8 counterexample: uploading `photo.jpeg` stores the original at
`original/id1.jpeg` while processing stores the derivatives at
`processed/id1.jpg` and `thumbnail/id1.jpg` — the derived blobs do not carry
the same extension as the uploaded file. -/
theorem C8_counterexample :
    (upload exCfg exUploadEnv ⟨[], [], []⟩ 10 "photo.jpeg").1.blobs
      = ["original/id1.jpeg"] ∧
    (upload exCfg exUploadEnv ⟨[], [], []⟩ 10 "photo.jpeg").1.queued
      = [⟨"id1", "original/id1.jpeg", .jpeg, 100, 50⟩] ∧
    (processImage exCfg exProcEnv
        (upload exCfg exUploadEnv ⟨[], [], []⟩ 10 "photo.jpeg").1.registry
        ⟨"id1", "original/id1.jpeg", .jpeg, 100, 50⟩).blobs
      = ["processed/id1.jpg", "thumbnail/id1.jpg"] ∧
    filepathExt "original/id1.jpeg" ≠ filepathExt "processed/id1.jpg" := by
  decide

/-- C8 (amended): all three blob paths share the image-id stem under the
`original/`, `processed/`, `thumbnail/` prefixes; the original keeps the
uploaded file's (lower-cased) extension, while processed and thumbnail use the
canonical extension of the ingestion format — which coincides with the
uploaded extension except for `.jpeg` uploads, whose derivatives are stored
with `.jpg`. -/
theorem C8_blob_path_scheme :
    (∀ (cfg : ImageConfig) (env : UploadEnv) (st : PipelineState) (size : Int)
        (filename : String) (img : Image),
        (upload cfg env st size filename).2 = .ok img →
        img.originalPath
          = pathJoin "original" (img.id ++ stringToLower (filepathExt filename))) ∧
    (∀ (cfg : ImageConfig) (env : ProcEnv) (reg : Registry) (task : ProcessingTask),
        (processImage cfg env reg task).res = .ok () →
        (processImage cfg env reg task).blobs
          = [pathJoin "processed" (task.imageID ++ getExtension task.format),
             pathJoin "thumbnail" (task.imageID ++ getExtension task.format)]) ∧
    (∀ (ext : String) (fmt : ImageFormat),
        parseFormat ext = .ok fmt → ext ≠ ".jpeg" → getExtension fmt = ext) := by
  refine ⟨?_, ?_, ?_⟩
  · intro cfg env st size filename img hok
    revert hok
    unfold upload
    dsimp only
    repeat' split
    all_goals intro hok
    all_goals dsimp only at hok
    all_goals
      first
        | (injection hok with h; subst h; rfl)
        | (simp at hok)
  · intro cfg env reg task hok
    obtain ⟨t1, t2, t3, u1, r, d, sp, stb, uf, u2⟩ := env
    cases hg : regGet reg task.imageID with
    | none => simp [processImage, hg] at hok
    | some img0 =>
      cases u1 <;> cases r <;> rcases d with _ | ⟨ow, oh⟩ <;> cases sp <;>
        cases stb <;> cases uf <;> cases u2 <;>
        simp_all [processImage, procFail, hg]
  · intro ext fmt hp hne
    unfold parseFormat at hp
    split_ifs at hp with h1 h2 h3
    · rcases h1 with h | h
      · cases hp
        rw [h]
        rfl
      · exact absurd h hne
    · cases hp
      rw [h2]
      rfl
    · cases hp
      rw [h3]
      rfl

/-- The pending row created by the concrete successful upload of `photo.png`. -/
def exPngImg : Image :=
  ⟨"id1", "original/id1.png", "", "", .pending, .png, 100, 50, 0, 0, 5, 5⟩

/-- The task the concrete `photo.png` upload enqueues. -/
def exPngTask : ProcessingTask := ⟨"id1", "original/id1.png", .png, 100, 50⟩

/-- C8 witness: the `.png` pipeline run realizes the path scheme with matching
extensions across all three blobs. -/
theorem C8_witness :
    exPngImg.originalPath
        = pathJoin "original" (exPngImg.id ++ stringToLower (filepathExt "photo.png")) ∧
    (processImage exCfg exProcEnv [exPngImg] exPngTask).blobs
      = [pathJoin "processed" (exPngTask.imageID ++ getExtension exPngTask.format),
         pathJoin "thumbnail" (exPngTask.imageID ++ getExtension exPngTask.format)] ∧
    getExtension .png = ".png" :=
  ⟨C8_blob_path_scheme.1 exCfg exUploadEnv ⟨[], [], []⟩ 10 "photo.png" exPngImg
      (by decide),
   C8_blob_path_scheme.2.1 exCfg exProcEnv [exPngImg] exPngTask (by decide),
   C8_blob_path_scheme.2.2 ".png" .png (by decide) (by decide)⟩

end ImageProcessor
